import Mathlib

set_option autoImplicit false

/-!
A verification development for the write-command layer of a document database
(`src/mongo/db/commands/write_commands.cpp`): the time-series bucket encoders,
the per-operation error construction (`generateError`), the reply assembler
(`populateReply`), and the time-series write driver
(`_performTimeseriesWrites` and its helpers), shallowly embedded as
executable Lean functions.
-/

namespace MongoWrite

/-- Opaque BSON scalar payload. The encoders copy values verbatim
(`BSONObjBuilder::appendAs`), so their internal structure is irrelevant. -/
abbrev BsonValue := Nat

/-- A BSON object, modelled as its ordered list of (field name, value) pairs.
BSON permits repeated field names, which the list model preserves. -/
abbrev BSONObj := List (String × BsonValue)

/-- One user measurement document. -/
abbrev Measurement := BSONObj

/-- The slice of `BucketCatalog::WriteBatch` that `write_commands.cpp` reads:
the target bucket id, `numPreviouslyCommittedMeasurements()`, the staged
`measurements()`, the min/max widening deltas `min()`/`max()`, and
`newFieldNamesToBeInserted()`. -/
structure WriteBatch where
  bucketId : Nat
  numPreviouslyCommittedMeasurements : Nat
  measurements : List Measurement
  min : BSONObj
  max : BSONObj
  newFieldNamesToBeInserted : List String
deriving Repr, DecidableEq

/-- `DecimalCounter<uint32_t>`: the decimal string for an index. -/
def decimalIndex (n : Nat) : String := toString n

/-- The metadata element's field name: `metadata.firstElement().fieldNameStringData()`;
`none` when the metadata object is empty (the element is falsy). -/
def metadataFieldName (metadata : BSONObj) : Option String := metadata.head?.map Prod.fst

/-- `StringDataMap<BSONObjBuilder>` keyed by data field name; each builder holds the
ordered (decimal index, value) pairs appended so far. The C++ hash map has
unspecified iteration order; the model fixes first-insertion order, on which no
claim depends. -/
abbrev DataColumns := List (String × List (String × BsonValue))

/-- `dataFieldBuilders[key].appendAs(elem, count)`: append one (index, value) pair
to the column of `key`, default-creating the column when absent. -/
def appendToColumn (cols : DataColumns) (key : String) (idx : String) (v : BsonValue) :
    DataColumns :=
  match cols with
  | [] => [(key, [(idx, v)])]
  | (k, col) :: rest =>
    if k = key then (k, col ++ [(idx, v)]) :: rest
    else (k, col) :: appendToColumn rest key idx v

/-- The inner loop over one measurement document: every element is appended to its
field's column under the current counter value, except an element whose field name
equals the metadata element's field name, which is skipped. -/
def appendMeasurement (metaField : Option String) (count : Nat) (cols : DataColumns)
    (doc : Measurement) : DataColumns :=
  doc.foldl (fun cols kv =>
    if metaField = some kv.1 then cols
    else appendToColumn cols kv.1 (decimalIndex count) kv.2) cols

/-- The double loop over `batch->measurements()` shared verbatim by
`makeTimeseriesUpdateOpEntry` and `makeTimeseriesInsertDocument`: the counter starts
at `count` and is incremented once per measurement. -/
def buildDataColumnsFrom (metaField : Option String) :
    DataColumns → Nat → List Measurement → DataColumns
  | cols, _, [] => cols
  | cols, count, doc :: docs =>
      buildDataColumnsFrom metaField (appendMeasurement metaField count cols doc) (count + 1) docs

/-- The columns built from an empty map with the counter starting at `start`
(`DecimalCounter<uint32_t> count(batch->numPreviouslyCommittedMeasurements())` for the
update entry, `DecimalCounter<uint32_t> count` i.e. 0 for the insert document). -/
def buildDataColumns (metaField : Option String) (start : Nat) (ms : List Measurement) :
    DataColumns :=
  buildDataColumnsFrom metaField [] start ms

/-- Sub-document diff on `control` inside the encoded update
(`s control: { s min: …, s max: … }` in the diff syntax). -/
structure ControlDiff where
  minDiff : Option BSONObj
  maxDiff : Option BSONObj
deriving Repr, DecidableEq

/-- The encoded diff produced by `makeTimeseriesUpdateOpEntry`: the optional `control`
sub-diff, the insert section of `sdata` holding whole new `data.<field>` subdocuments,
and one sub-diff per existing field each carrying an insert section. A section is
absent from the serialized diff exactly when its list here is empty. -/
structure DocDiff where
  controlDiff : Option ControlDiff
  dataInsertSection : DataColumns
  dataSubDiffSection : DataColumns
deriving Repr, DecidableEq

/-- `write_ops::UpdateOpEntry update(BSON("_id" << batch->bucket()->id()), std::move(u))`.
`multi` and `upsert` are the IDL defaults (false), which the source invariant-checks. -/
structure UpdateOpEntry where
  qIdFilter : Nat
  u : DocDiff
  multi : Bool
  upsert : Bool
deriving Repr, DecidableEq

/-- Embedding of `makeTimeseriesUpdateOpEntry` (write_commands.cpp:129-191). -/
def makeTimeseriesUpdateOpEntry (batch : WriteBatch) (metadata : BSONObj) : UpdateOpEntry :=
  let controlDiff :=
    if !batch.min.isEmpty || !batch.max.isEmpty then
      some { minDiff := if !batch.min.isEmpty then some batch.min else none
             maxDiff := if !batch.max.isEmpty then some batch.max else none }
    else none
  let cols := buildDataColumns (metadataFieldName metadata)
      batch.numPreviouslyCommittedMeasurements batch.measurements
  { qIdFilter := batch.bucketId
    u := { controlDiff := controlDiff
           dataInsertSection :=
             cols.filter (fun c => batch.newFieldNamesToBeInserted.contains c.1)
           dataSubDiffSection :=
             cols.filter (fun c => !batch.newFieldNamesToBeInserted.contains c.1) }
    multi := false
    upsert := false }

/-- Default for control.version in time-series bucket collection. -/
def kTimeseriesControlVersion : Nat := 1

/-- The single bucket document built by `makeTimeseriesInsertDocument`
(write_commands.cpp:196-235); the C++ function wraps it in a one-element BSON array
used as the insert's `documents` vector. -/
structure NewBucketDoc where
  idField : Nat
  controlVersion : Nat
  controlMin : BSONObj
  controlMax : BSONObj
  meta : Option BsonValue
  data : DataColumns
deriving Repr, DecidableEq

/-- Embedding of `makeTimeseriesInsertDocument`: `_id`, `control` with fixed version
and the batch min/max, the metadata value re-labelled `meta` when present
(`appendAs(metadataElem, "meta")`), and the data columns counted from 0. -/
def makeTimeseriesInsertDocument (batch : WriteBatch) (metadata : BSONObj) : NewBucketDoc :=
  { idField := batch.bucketId
    controlVersion := kTimeseriesControlVersion
    controlMin := batch.min
    controlMax := batch.max
    meta := metadata.head?.map Prod.snd
    data := buildDataColumns (metadataFieldName metadata) 0 batch.measurements }

/-! Characterization of the data columns, following the spec's words (§4.3): each
field maps "decimal indices (starting at `numPreviouslyCommittedMeasurements`)
to values" — or starting at 0 for a new bucket — in measurement insertion order,
with the metadata field excluded. -/

/-- Spec-side contribution of one measurement at counter value `count` to field `f`'s
column: its `f`-valued elements indexed by the decimal counter, nothing when `f` is
the metadata field. -/
def specRow (metaField : Option String) (count : Nat) (doc : Measurement) (f : String) :
    List (String × BsonValue) :=
  if metaField = some f then []
  else (doc.filter (fun kv => kv.1 == f)).map (fun kv => (decimalIndex count, kv.2))

/-- Spec-side column of field `f`: measurement `i` (in insertion order) contributes its
`f` values at decimal index `count + i`. -/
def specColumn (metaField : Option String) (f : String) :
    Nat → List Measurement → List (String × BsonValue)
  | _, [] => []
  | count, doc :: docs =>
      specRow metaField count doc f ++ specColumn metaField f (count + 1) docs

/-- Extend an optional column by a row: a missing column is created exactly when the
row is non-empty (mirrors default-construction on first `appendAs`). -/
def extendCol (col : Option (List (String × BsonValue))) (row : List (String × BsonValue)) :
    Option (List (String × BsonValue)) :=
  match col with
  | some col => some (col ++ row)
  | none => if row = [] then none else some row

@[simp] theorem extendCol_nil (col : Option (List (String × BsonValue))) :
    extendCol col [] = col := by
  cases col <;> simp [extendCol]

theorem extendCol_append (col : Option (List (String × BsonValue)))
    (r₁ r₂ : List (String × BsonValue)) :
    extendCol (extendCol col r₁) r₂ = extendCol col (r₁ ++ r₂) := by
  cases col with
  | some col => simp [extendCol]
  | none =>
    by_cases h₁ : r₁ = []
    · subst h₁; simp [extendCol]
    · by_cases h₂ : r₂ = [] <;> simp [extendCol, h₁, h₂]

theorem lookup_cons {β : Type} (f k : String) (col : β) (tl : List (String × β)) :
    List.lookup f ((k, col) :: tl) = if f = k then some col else List.lookup f tl := by
  by_cases h : f = k
  · subst h; simp [List.lookup]
  · have hb : (f == k) = false := beq_eq_false_iff_ne.mpr h
    simp [List.lookup, hb, h]

theorem lookup_appendToColumn (cols : DataColumns) (key idx : String) (v : BsonValue)
    (f : String) :
    (appendToColumn cols key idx v).lookup f =
      if f = key then extendCol (cols.lookup key) [(idx, v)] else cols.lookup f := by
  induction cols with
  | nil =>
    rw [show appendToColumn [] key idx v = [(key, [(idx, v)])] from rfl, lookup_cons]
    by_cases h : f = key <;> simp [extendCol, h, List.lookup]
  | cons hd tl ih =>
    obtain ⟨k, col⟩ := hd
    by_cases hk : k = key
    · subst hk
      by_cases hf : f = k <;> simp [appendToColumn, lookup_cons, extendCol, hf]
    · have hky : ¬ key = k := fun h => hk h.symm
      by_cases hf : f = k
      · have hfk : ¬ f = key := fun h => hk ((hf.symm.trans h) ▸ rfl)
        simp [appendToColumn, hk, lookup_cons, hf, hfk]
      · simp [appendToColumn, hk, lookup_cons, hf, hky, ih]

theorem specRow_cons (mf : Option String) (c : Nat) (k : String) (v : BsonValue)
    (rest : Measurement) (f : String) :
    specRow mf c ((k, v) :: rest) f =
      (if mf = some f then [] else if k = f then [(decimalIndex c, v)] else [])
        ++ specRow mf c rest f := by
  by_cases hmf : mf = some f
  · simp [specRow, hmf]
  · by_cases hk : k = f
    · subst hk; simp [specRow, hmf, List.filter]
    · have hb : (k == f) = false := beq_eq_false_iff_ne.mpr hk
      simp [specRow, hmf, List.filter, hb, hk]

theorem lookup_appendMeasurement (mf : Option String) (count : Nat)
    (cols : DataColumns) (doc : Measurement) (f : String) :
    (appendMeasurement mf count cols doc).lookup f =
      extendCol (cols.lookup f) (specRow mf count doc f) := by
  induction doc generalizing cols with
  | nil => simp [appendMeasurement, specRow]
  | cons kv rest ih =>
    obtain ⟨k, v⟩ := kv
    by_cases hmk : mf = some k
    · have hstep : appendMeasurement mf count cols ((k, v) :: rest) =
          appendMeasurement mf count cols rest := by
        simp [appendMeasurement, hmk]
      have hpre : (if mf = some f then [] else
          if k = f then [(decimalIndex count, v)] else []) = ([] : List (String × BsonValue)) := by
        by_cases hf : k = f
        · rw [if_pos (hf ▸ hmk)]
        · simp [hf]
      rw [hstep, ih, specRow_cons, hpre, List.nil_append]
    · have hstep : appendMeasurement mf count cols ((k, v) :: rest) =
          appendMeasurement mf count (appendToColumn cols k (decimalIndex count) v) rest := by
        simp [appendMeasurement, hmk]
      rw [hstep, ih, lookup_appendToColumn, specRow_cons]
      by_cases hf : f = k
      · rw [← hf] at hmk
        rw [if_pos hf, if_neg hmk, ← hf, if_pos rfl, extendCol_append]
      · have hkf : ¬ k = f := fun h => hf h.symm
        rw [if_neg hf]
        have hpre : (if mf = some f then [] else
            if k = f then [(decimalIndex count, v)] else [])
              = ([] : List (String × BsonValue)) := by
          by_cases hmf : mf = some f <;> simp [hmf, hkf]
        rw [hpre, List.nil_append]

theorem lookup_buildDataColumnsFrom (metaField : Option String) (cols : DataColumns)
    (count : Nat) (ms : List Measurement) (f : String) :
    (buildDataColumnsFrom metaField cols count ms).lookup f =
      extendCol (cols.lookup f) (specColumn metaField f count ms) := by
  induction ms generalizing cols count with
  | nil => simp [buildDataColumnsFrom, specColumn]
  | cons doc docs ih =>
    rw [show buildDataColumnsFrom metaField cols count (doc :: docs) =
          buildDataColumnsFrom metaField
            (appendMeasurement metaField count cols doc) (count + 1) docs from rfl,
        ih, lookup_appendMeasurement, extendCol_append]
    rfl

/-- The column of field `f` in the built data map: present exactly when some
measurement contributes to it, and in that case equal to the spec-side column. -/
theorem lookup_buildDataColumns (metaField : Option String) (start : Nat)
    (ms : List Measurement) (f : String) :
    (buildDataColumns metaField start ms).lookup f =
      if specColumn metaField f start ms = [] then none
      else some (specColumn metaField f start ms) := by
  rw [buildDataColumns, lookup_buildDataColumnsFrom]
  simp [List.lookup, extendCol]

theorem lookup_filter_key (p : String → Bool) (cols : DataColumns) (f : String) :
    (cols.filter (fun c => p c.1)).lookup f =
      if p f then cols.lookup f else none := by
  induction cols with
  | nil => simp [List.lookup]
  | cons hd tl ih =>
    obtain ⟨k, col⟩ := hd
    by_cases hf : f = k
    · subst hf
      by_cases hp : p f <;> simp [List.filter, hp, lookup_cons, ih]
    · by_cases hp : p k <;> by_cases hpf : p f <;>
        simp [List.filter, hp, hpf, lookup_cons, ih, hf]

theorem lookup_filter_key_not (p : String → Bool) (cols : DataColumns) (f : String) :
    (cols.filter (fun c => !p c.1)).lookup f = if p f then none else cols.lookup f := by
  induction cols with
  | nil => by_cases hpf : p f <;> simp [List.lookup, hpf]
  | cons hd tl ih =>
    obtain ⟨k, col⟩ := hd
    by_cases hf : f = k
    · subst hf
      by_cases hp : p f <;> simp [List.filter, hp, lookup_cons, ih]
    · by_cases hp : p k <;> by_cases hpf : p f <;>
        simp [List.filter, hp, hpf, lookup_cons, ih, hf]

/-- When `f` is the metadata field, every row is skipped. -/
theorem specColumn_metaField_self (m : String) (count : Nat) (ms : List Measurement) :
    specColumn (some m) m count ms = [] := by
  induction ms generalizing count with
  | nil => rfl
  | cons doc docs ih => simp [specColumn, specRow, ih]

/-- C6: the new-bucket document built by `makeTimeseriesInsertDocument` for a first
write carries `_id` equal to the bucket id, `control` with version fixed at 1 and the
batch's min and max, the metadata value under the field name `meta` exactly when
metadata is present (regardless of its source field name), and a `data` subdocument in
which the column of every measurement field maps the decimal index of each measurement
holding that field — indices assigned densely from "0" in insertion order — to the
field's value in that measurement. -/
theorem C6_new_bucket_document_shape (batch : WriteBatch) (metadata : BSONObj) :
    (makeTimeseriesInsertDocument batch metadata).idField = batch.bucketId ∧
    (makeTimeseriesInsertDocument batch metadata).controlVersion = 1 ∧
    (makeTimeseriesInsertDocument batch metadata).controlMin = batch.min ∧
    (makeTimeseriesInsertDocument batch metadata).controlMax = batch.max ∧
    (makeTimeseriesInsertDocument batch metadata).meta = metadata.head?.map Prod.snd ∧
    ((makeTimeseriesInsertDocument batch metadata).meta.isSome ↔ metadata ≠ []) ∧
    ∀ f, (makeTimeseriesInsertDocument batch metadata).data.lookup f =
      if specColumn (metadataFieldName metadata) f 0 batch.measurements = [] then none
      else some (specColumn (metadataFieldName metadata) f 0 batch.measurements) := by
  refine ⟨rfl, rfl, rfl, rfl, rfl, ?_, ?_⟩
  · cases metadata <;> simp [makeTimeseriesInsertDocument]
  · intro f
    exact lookup_buildDataColumns _ _ _ _

/-- C5: the diff built by `makeTimeseriesUpdateOpEntry` widens `control.min`
(respectively `control.max`) exactly when the batch's min (max) is non-empty; every
field present in the batch and listed in `newFieldNamesToBeInserted` appears as a fresh
`data.<field>` subdocument in the insert section, every other present field as a
sub-diff insert section extending the existing `data.<field>` subdocument, both mapping
decimal indices starting at `numPreviouslyCommittedMeasurements` to the per-measurement
values in insertion order. -/
theorem C5_diff_update_encoding (batch : WriteBatch) (metadata : BSONObj)
    (hprev : 0 < batch.numPreviouslyCommittedMeasurements) :
    ((makeTimeseriesUpdateOpEntry batch metadata).u.controlDiff.bind ControlDiff.minDiff =
       if batch.min.isEmpty then none else some batch.min) ∧
    ((makeTimeseriesUpdateOpEntry batch metadata).u.controlDiff.bind ControlDiff.maxDiff =
       if batch.max.isEmpty then none else some batch.max) ∧
    (∀ f, (makeTimeseriesUpdateOpEntry batch metadata).u.dataInsertSection.lookup f =
       if batch.newFieldNamesToBeInserted.contains f then
         (if specColumn (metadataFieldName metadata) f
              batch.numPreviouslyCommittedMeasurements batch.measurements = [] then none
          else some (specColumn (metadataFieldName metadata) f
              batch.numPreviouslyCommittedMeasurements batch.measurements))
       else none) ∧
    (∀ f, (makeTimeseriesUpdateOpEntry batch metadata).u.dataSubDiffSection.lookup f =
       if batch.newFieldNamesToBeInserted.contains f then none
       else (if specColumn (metadataFieldName metadata) f
               batch.numPreviouslyCommittedMeasurements batch.measurements = [] then none
             else some (specColumn (metadataFieldName metadata) f
               batch.numPreviouslyCommittedMeasurements batch.measurements))) := by
  refine ⟨?_, ?_, ?_, ?_⟩
  · by_cases hmin : batch.min.isEmpty <;> by_cases hmax : batch.max.isEmpty <;>
      simp [makeTimeseriesUpdateOpEntry, hmin, hmax]
  · by_cases hmin : batch.min.isEmpty <;> by_cases hmax : batch.max.isEmpty <;>
      simp [makeTimeseriesUpdateOpEntry, hmin, hmax]
  · intro f
    rw [show (makeTimeseriesUpdateOpEntry batch metadata).u.dataInsertSection =
          (buildDataColumns (metadataFieldName metadata)
            batch.numPreviouslyCommittedMeasurements batch.measurements).filter
              (fun c => batch.newFieldNamesToBeInserted.contains c.1) from rfl,
        lookup_filter_key, lookup_buildDataColumns]
  · intro f
    rw [show (makeTimeseriesUpdateOpEntry batch metadata).u.dataSubDiffSection =
          (buildDataColumns (metadataFieldName metadata)
            batch.numPreviouslyCommittedMeasurements batch.measurements).filter
              (fun c => !batch.newFieldNamesToBeInserted.contains c.1) from rfl,
        lookup_filter_key_not, lookup_buildDataColumns]

/-- C5 witness: concrete evaluation of `C5_diff_update_encoding` on a batch with two
previously committed measurements, one new field "w" and one existing field "t". -/
theorem C5_diff_update_encoding_witness :
    (makeTimeseriesUpdateOpEntry
        ⟨5, 2, [[("t", 30), ("w", 9)]], [("w", 9)], [("t", 30), ("w", 9)], ["w"]⟩
        [("tag", 7)]).u.dataInsertSection.lookup "w" = some [(decimalIndex 2, 9)] := by
  have h := (C5_diff_update_encoding
      ⟨5, 2, [[("t", 30), ("w", 9)]], [("w", 9)], [("t", 30), ("w", 9)], ["w"]⟩
      [("tag", 7)] (by decide)).2.2.1 "w"
  rw [h]; decide

/-- C10: in both encoder outputs, a top-level measurement field whose name equals the
metadata element's field name is skipped, so the metadata value never appears as a
`data` column entry — neither in the new-bucket document nor in either section of the
diff update. -/
theorem C10_metadata_not_in_data_columns (batch : WriteBatch) (metadata : BSONObj)
    (m : String) (v : BsonValue) (h : metadata.head? = some (m, v)) :
    (makeTimeseriesInsertDocument batch metadata).data.lookup m = none ∧
    (makeTimeseriesUpdateOpEntry batch metadata).u.dataInsertSection.lookup m = none ∧
    (makeTimeseriesUpdateOpEntry batch metadata).u.dataSubDiffSection.lookup m = none := by
  have hmf : metadataFieldName metadata = some m := by
    simp [metadataFieldName, h]
  have hcols : ∀ start,
      (buildDataColumns (metadataFieldName metadata) start batch.measurements).lookup m
        = none := by
    intro start
    rw [hmf, lookup_buildDataColumns, specColumn_metaField_self]
    simp
  refine ⟨hcols 0, ?_, ?_⟩
  · rw [show (makeTimeseriesUpdateOpEntry batch metadata).u.dataInsertSection =
          (buildDataColumns (metadataFieldName metadata)
            batch.numPreviouslyCommittedMeasurements batch.measurements).filter
              (fun c => batch.newFieldNamesToBeInserted.contains c.1) from rfl,
        lookup_filter_key, hcols]
    simp
  · rw [show (makeTimeseriesUpdateOpEntry batch metadata).u.dataSubDiffSection =
          (buildDataColumns (metadataFieldName metadata)
            batch.numPreviouslyCommittedMeasurements batch.measurements).filter
              (fun c => !batch.newFieldNamesToBeInserted.contains c.1) from rfl,
        lookup_filter_key_not, hcols]
    simp

/-- C10 witness: concrete evaluation on a measurement that carries the metadata field
"tag" alongside a data field. -/
theorem C10_metadata_not_in_data_columns_witness :
    (makeTimeseriesInsertDocument ⟨1, 0, [[("tag", 7), ("t", 3)]], [], [], []⟩
        [("tag", 7)]).data.lookup "tag" = none ∧
    (makeTimeseriesUpdateOpEntry ⟨1, 0, [[("tag", 7), ("t", 3)]], [], [], []⟩
        [("tag", 7)]).u.dataInsertSection.lookup "tag" = none ∧
    (makeTimeseriesUpdateOpEntry ⟨1, 0, [[("tag", 7), ("t", 3)]], [], [], []⟩
        [("tag", 7)]).u.dataSubDiffSection.lookup "tag" = none :=
  C10_metadata_not_in_data_columns ⟨1, 0, [[("tag", 7), ("t", 3)]], [], [], []⟩
    [("tag", 7)] "tag" 7 rfl

/-! Error model: `Status`, `ErrorExtraInfo` payloads, and the error-code categories
used by `generateError` and `populateReply`. -/

/-- Error codes distinguished by the write path. The numeric values of
`error_codes.yml` are immaterial here; only identity and category membership are. -/
inductive ErrorCode
  | ok
  | staleConfig
  | staleShardVersion
  | staleEpoch
  | staleDbVersion
  | tenantMigrationConflict
  | tenantMigrationCommitted
  | tenantMigrationAborted
  | documentValidationFailure
  | timeseriesBucketCleared
  | failPointEnabled
  | namespaceNotFound
  | invalidOptions
  | other (n : Nat)
deriving DecidableEq, Repr

/-- `ErrorExtraInfo` payloads that `generateError` inspects. The
tenant-migration-conflict info carries the outcome of the external blocking call
`waitUntilCommittedOrAborted` (its resulting code and reason) as data, so the
embedding is a pure function of its inputs. -/
inductive ExtraInfo
  | noInfo
  | staleInfo (payload : String)
  | docValidation (details : String)
  | migrationConflict (decisionCode : ErrorCode) (decisionReason : String)
  | generic (payload : String)
deriving DecidableEq, Repr

def ExtraInfo.isStaleInfo : ExtraInfo → Bool
  | .staleInfo _ => true
  | _ => false

def ExtraInfo.isNoInfo : ExtraInfo → Bool
  | .noInfo => true
  | _ => false

def ExtraInfo.stalePayload : ExtraInfo → String
  | .staleInfo p => p
  | _ => ""

def ExtraInfo.validationDetails : ExtraInfo → String
  | .docValidation d => d
  | _ => ""

def ExtraInfo.decisionCode : ExtraInfo → ErrorCode
  | .migrationConflict c _ => c
  | _ => .other 0

def ExtraInfo.decisionReason : ExtraInfo → String
  | .migrationConflict _ r => r
  | _ => ""

/-- Serialization of an attached extra-info into the error object
(`extraInfo->serialize(&error)` in the default branch). -/
def ExtraInfo.serialized : ExtraInfo → Option String
  | .noInfo => none
  | .staleInfo p => some p
  | .docValidation d => some d
  | .migrationConflict _ r => some r
  | .generic p => some p

/-- `mongo::Status`: an error code, a reason string, and an optional extra info. -/
structure Status where
  code : ErrorCode
  reason : String
  extra : ExtraInfo
deriving DecidableEq, Repr

def okStatus : Status := ⟨.ok, "", .noInfo⟩

/-- `Status::withReason`: same code and extra info, new reason. -/
def Status.withReason (s : Status) (r : String) : Status := { s with reason := r }

/-- `ErrorCodes::isStaleShardVersionError` category. -/
def isStaleShardVersionError : ErrorCode → Bool
  | .staleConfig | .staleShardVersion | .staleEpoch => true
  | _ => false

/-- `ErrorCodes::isTenantMigrationError` category. -/
def isTenantMigrationError : ErrorCode → Bool
  | .tenantMigrationConflict | .tenantMigrationCommitted | .tenantMigrationAborted => true
  | _ => false

def kErrorSizeTruncationMin : Nat := 1024 * 1024
def kErrorCountTruncationMin : Nat := 2

/-- One invocation of the `errorMessage` closure in `generateError`. The closure is a
local of each `generateError` call with init-capture `errorSize = size_t(0)`; an
invocation reads the captured `errorSize` and returns the (possibly truncated) message
together with the updated capture. `generateError` invokes it exactly once per call,
always with the fresh `errorSize = 0`. -/
def errorMessage (numErrors errorSize : Nat) (rawMessage : String) : String × Nat :=
  if kErrorSizeTruncationMin ≤ errorSize ∧ kErrorCountTruncationMin ≤ numErrors then
    ("", errorSize)
  else
    (rawMessage, errorSize + rawMessage.length)

/-- One element of the reply's `writeErrors` array: `{index, code, errmsg, errInfo?}`.
`errInfo` stands for whatever extra fields the taken branch serializes into the error
object (as a subobject or at top level). -/
structure WriteErrorEntry where
  index : Nat
  code : ErrorCode
  errmsg : String
  errInfo : Option String
deriving DecidableEq, Repr

/-- Embedding of `generateError` (write_commands.cpp:270-340). Returns `none` for an OK
result. Branches in source order: stale-config extra (code rewritten to
`StaleShardVersion`), document-validation failure with details, tenant-migration
errors (a conflict blocks on the migration decision and substitutes its code; the
decision's reason is attached only when the original reason was nonempty), and the
default (code plus serialized extra). The bottom `errmsg` append is folded into each
branch; it is skipped exactly where the conflict branch already appended. -/
def generateError (res : Status) (index numErrors : Nat) : Option WriteErrorEntry :=
  if res.code = .ok then none
  else some (
    if res.extra.isStaleInfo then
      { index := index, code := .staleShardVersion,
        errmsg := (errorMessage numErrors 0 res.reason).1,
        errInfo := some res.extra.stalePayload }
    else if res.code = .documentValidationFailure ∧ res.extra.isNoInfo = false then
      { index := index, code := .documentValidationFailure,
        errmsg := (errorMessage numErrors 0 res.reason).1,
        errInfo := some res.extra.validationDetails }
    else if isTenantMigrationError res.code then
      if res.code = .tenantMigrationConflict then
        if res.reason = "" then
          { index := index, code := res.extra.decisionCode,
            errmsg := (errorMessage numErrors 0 res.reason).1,
            errInfo := none }
        else
          { index := index, code := res.extra.decisionCode,
            errmsg := (errorMessage numErrors 0 res.extra.decisionReason).1,
            errInfo := none }
      else
        { index := index, code := res.code,
          errmsg := (errorMessage numErrors 0 res.reason).1,
          errInfo := none }
    else
      { index := index, code := res.code,
        errmsg := (errorMessage numErrors 0 res.reason).1,
        errInfo := res.extra.serialized })

/-- The code `generateError` attaches: a stale-config extra is rewritten to
`StaleShardVersion`; a tenant-migration conflict is replaced by the migration
decision's code; anything else keeps the status code. -/
def errorCodeOf (res : Status) : ErrorCode :=
  if res.extra.isStaleInfo then .staleShardVersion
  else if res.code = .documentValidationFailure ∧ res.extra.isNoInfo = false then
    .documentValidationFailure
  else if isTenantMigrationError res.code then
    if res.code = .tenantMigrationConflict then res.extra.decisionCode else res.code
  else res.code

/-- The untruncated message of an entry: the status reason, except on the
tenant-migration-conflict path with a nonempty original reason, where the migration
decision's reason is attached instead. -/
def rawErrmsg (res : Status) : String :=
  if res.extra.isStaleInfo then res.reason
  else if res.code = .documentValidationFailure ∧ res.extra.isNoInfo = false then res.reason
  else if isTenantMigrationError res.code then
    if res.code = .tenantMigrationConflict then
      if res.reason = "" then res.reason else res.extra.decisionReason
    else res.reason
  else res.reason

/-- With the fresh per-call `errorSize = 0`, the truncation guard never fires. -/
theorem errorMessage_fresh (n : Nat) (raw : String) : (errorMessage n 0 raw).1 = raw := by
  have hc : ¬ (kErrorSizeTruncationMin ≤ 0 ∧ kErrorCountTruncationMin ≤ n) := by
    intro h
    exact absurd h.1 (by decide)
  rw [errorMessage, if_neg hc]

/-- Structure of every generated entry: its index, its rewritten code, and its full,
untruncated message. -/
theorem generateError_spec (res : Status) (i n : Nat) (h : ¬ res.code = .ok) :
    ∃ e, generateError res i n = some e ∧ e.index = i ∧ e.code = errorCodeOf res ∧
      e.errmsg = rawErrmsg res := by
  refine ⟨_, by rw [generateError, if_neg h], ?_⟩
  rw [errorCodeOf, rawErrmsg]
  split_ifs <;> simp [errorMessage_fresh]

theorem rawErrmsg_of_reason_empty (res : Status) (hr : res.reason = "") :
    rawErrmsg res = "" := by
  rw [rawErrmsg]
  split_ifs <;> simp_all

/-- C1: the error-message truncation claimed by the spec can never occur. The
`errorMessage` closure is re-created with `errorSize = size_t(0)` on every
`generateError` call and invoked exactly once within that call, so its accumulated
size is always 0 when the `1 MiB && ≥ 2 errors` guard is tested: every generated
`writeErrors` entry carries its full untruncated message, whatever `numErrors` and the
previously accumulated message bytes are, and the claimed 1 MiB + one-message budget
on the sum of `errmsg` lengths does not hold. -/
theorem C1_truncation_never_fires (res : Status) (index numErrors : Nat)
    (h : ¬ res.code = .ok) :
    (∀ n raw, (errorMessage n 0 raw).1 = raw) ∧
    ∃ e, generateError res index numErrors = some e ∧ e.errmsg = rawErrmsg res :=
  ⟨errorMessage_fresh, by
    obtain ⟨e, he, _, _, hmsg⟩ := generateError_spec res index numErrors h
    exact ⟨e, he, hmsg⟩⟩

/-- C1 witness: a duplicate-key-style error generated as the third error
(`numErrors = 2`, past the count threshold) still carries its full message. -/
theorem C1_truncation_never_fires_witness :
    (∀ n raw, (errorMessage n 0 raw).1 = raw) ∧
    ∃ e, generateError ⟨.other 11000, "E11000 duplicate key", .noInfo⟩ 2 2 = some e ∧
      e.errmsg = rawErrmsg ⟨.other 11000, "E11000 duplicate key", .noInfo⟩ :=
  C1_truncation_never_fires ⟨.other 11000, "E11000 duplicate key", .noInfo⟩ 2 2 (by decide)

/-! Reply assembly: write concern, `shouldSkipOutput`, and `populateReply`. -/

inductive SyncMode
  | unset
  | syncNone
  | fsync
  | journal
deriving DecidableEq, Repr

structure WriteConcernOptions where
  wMode : String
  wNumNodes : Nat
  syncMode : SyncMode
deriving DecidableEq, Repr

/-- Embedding of `shouldSkipOutput` (write_commands.cpp:99-104). -/
def shouldSkipOutput (wc : WriteConcernOptions) : Bool :=
  wc.wMode == "" && wc.wNumNodes == 0 &&
    (wc.syncMode == SyncMode.syncNone || wc.syncMode == SyncMode.unset)

/-- `ReplicationCoordinator::getReplicationMode()`. -/
inductive ReplMode
  | modeNone
  | modeReplSet
deriving DecidableEq, Repr

/-- The slice of `OperationContext` plus ambient services read by the embedded
functions: the write concern, the replication mode, and the client's last op time and
election id (opaque numbers). -/
structure OpCtx where
  writeConcern : WriteConcernOptions
  replMode : ReplMode
  lastOpTime : Nat
  electionId : Nat

/-- `mongo::SingleWriteResult`: the per-operation success counters read here. -/
structure SingleWriteResult where
  n : Nat
  nModified : Nat
deriving DecidableEq, Repr

/-- `StatusWith<SingleWriteResult>`. -/
abbrev WriteResultEntry := Except Status SingleWriteResult

def statusOf : WriteResultEntry → Status
  | .error s => s
  | .ok _ => okStatus

/-- The `WriteCommandReplyBase` fields populated here; a field is `none` until its
setter has been called. -/
structure Reply where
  n : Option Nat
  writeErrors : Option (List WriteErrorEntry)
  opTime : Option Nat
  electionId : Option Nat
deriving DecidableEq, Repr

def emptyReply : Reply := ⟨none, none, none, none⟩

/-- `std::vector::resize(n, fill)`. -/
def listResize {α : Type} (l : List α) (n : Nat) (fill : α) : List α :=
  if l.length ≤ n then l ++ List.replicate (n - l.length) fill else l.take n

/-- The result loop of `populateReply`: sums `n` over successes and collects the
`generateError` entries, feeding each call the running error count
(`errors.size()`). -/
def replyLoop : List WriteResultEntry → Nat → Nat → Nat × List WriteErrorEntry
  | [], _, _ => (0, [])
  | r :: rs, i, numErrors =>
    match generateError (statusOf r) i numErrors with
    | some e =>
      let rest := replyLoop rs (i + 1) (numErrors + 1)
      (rest.1, e :: rest.2)
    | none =>
      let rest := replyLoop rs (i + 1) numErrors
      ((match r with | .ok v => v.n | .error _ => 0) + rest.1, rest.2)

/-- Embedding of `populateReply` (write_commands.cpp:358-429), without the optional
hooks: they accumulate only the update-specific `nModified`/`upserted` reply fields
(none of the base fields modelled here) and are skipped together with everything else
by the unacknowledged-write early return. -/
def populateReply (opCtx : OpCtx) (continueOnError : Bool) (opsInBatch : Nat)
    (results : List WriteResultEntry) (cmdReply : Reply) : Reply :=
  if shouldSkipOutput opCtx.writeConcern then cmdReply
  else
    let results :=
      if continueOnError then
        match results.getLast? with
        | Option.none => results
        | some lastResult =>
          let st := statusOf lastResult
          if st.code == ErrorCode.staleDbVersion || isStaleShardVersionError st.code
              || isTenantMigrationError st.code then
            listResize results opsInBatch (.error (st.withReason ""))
          else results
      else results
    let loop := replyLoop results 0 0
    let cmdReply := { cmdReply with n := some loop.1 }
    let cmdReply :=
      if loop.2.isEmpty then cmdReply else { cmdReply with writeErrors := some loop.2 }
    if opCtx.replMode ≠ ReplMode.modeNone then
      let cmdReply := { cmdReply with opTime := some opCtx.lastOpTime }
      if opCtx.replMode = ReplMode.modeReplSet then
        { cmdReply with electionId := some opCtx.electionId }
      else cmdReply
    else cmdReply

/-- C9: with a write concern of zero nodes, no mode, and no journal or fsync
requirement, `populateReply` returns before modifying the reply at all: in particular
the fresh reply stays with no `n`, no `writeErrors`, and no `opTime` or `electionId`
stamps, regardless of the per-operation results. -/
theorem C9_unacknowledged_write_skips_reply (opCtx : OpCtx) (continueOnError : Bool)
    (opsInBatch : Nat) (results : List WriteResultEntry) (cmdReply : Reply)
    (hmode : opCtx.writeConcern.wMode = "") (hnodes : opCtx.writeConcern.wNumNodes = 0)
    (hsync : opCtx.writeConcern.syncMode = SyncMode.syncNone ∨
             opCtx.writeConcern.syncMode = SyncMode.unset) :
    populateReply opCtx continueOnError opsInBatch results cmdReply = cmdReply ∧
    populateReply opCtx continueOnError opsInBatch results emptyReply = emptyReply := by
  have hskip : shouldSkipOutput opCtx.writeConcern = true := by
    rcases hsync with h | h <;> simp [shouldSkipOutput, hmode, hnodes, h]
  constructor <;> simp [populateReply, hskip]

/-- C9 witness: an unacknowledged ordered insert with a failed result leaves both a
fresh reply and a pre-filled reply untouched. -/
theorem C9_unacknowledged_write_skips_reply_witness :
    populateReply ⟨⟨"", 0, SyncMode.unset⟩, ReplMode.modeReplSet, 7, 3⟩ true 2
        [Except.error ⟨.staleDbVersion, "stale", .noInfo⟩] ⟨some 5, none, none, none⟩
      = ⟨some 5, none, none, none⟩ ∧
    populateReply ⟨⟨"", 0, SyncMode.unset⟩, ReplMode.modeReplSet, 7, 3⟩ true 2
        [Except.error ⟨.staleDbVersion, "stale", .noInfo⟩] emptyReply = emptyReply :=
  C9_unacknowledged_write_skips_reply _ true 2 _ _ rfl rfl (Or.inr rfl)

theorem get?_replicate_of_lt {α : Type} (a : α) (n j : Nat) (h : j < n) :
    (List.replicate n a).get? j = some a := by
  induction n generalizing j with
  | zero => omega
  | succ n ih =>
    cases j with
    | zero => rfl
    | succ j => simpa [List.replicate] using ih j (by omega)

theorem listResize_get_fill {α : Type} (l : List α) (n j : Nat) (fill : α)
    (h1 : l.length ≤ j) (h2 : j < n) :
    (listResize l n fill).get? j = some fill := by
  rw [listResize, if_pos (by omega : l.length ≤ n), List.get?_append_right h1,
    get?_replicate_of_lt _ _ _ (by omega)]

/-- Every non-OK result at position `j` of the loop's input yields an entry at absolute
index `i0 + j`, carrying the rewritten code, with an empty message when the status
reason is empty. -/
theorem replyLoop_mem (rs : List WriteResultEntry) (i0 n0 j : Nat) (s : Status)
    (hj : rs.get? j = some (.error s)) (hcode : ¬ s.code = .ok) :
    ∃ e ∈ (replyLoop rs i0 n0).2, e.index = i0 + j ∧ e.code = errorCodeOf s ∧
      (s.reason = "" → e.errmsg = "") := by
  induction rs generalizing i0 n0 j with
  | nil => simp at hj
  | cons r rest ih =>
    cases j with
    | zero =>
      have hr : r = .error s := by simpa using hj
      subst hr
      obtain ⟨e, he, hidx, hc, hmsg⟩ := generateError_spec s i0 n0 hcode
      refine ⟨e, ?_, by omega, hc, fun hre => ?_⟩
      · show e ∈ (replyLoop (Except.error s :: rest) i0 n0).2
        simp only [replyLoop, statusOf]
        rw [he]
        exact List.mem_cons_self _ _
      · rw [hmsg, rawErrmsg_of_reason_empty s hre]
    | succ j =>
      have hj' : rest.get? j = some (.error s) := by simpa using hj
      cases hge : generateError (statusOf r) i0 n0 with
      | some e0 =>
        obtain ⟨e, hmem, hidx, hc, hmsg⟩ := ih (i0 + 1) (n0 + 1) j hj'
        refine ⟨e, ?_, by omega, hc, hmsg⟩
        show e ∈ (replyLoop (r :: rest) i0 n0).2
        simp only [replyLoop]
        rw [hge]
        exact List.mem_cons_of_mem _ hmem
      | none =>
        obtain ⟨e, hmem, hidx, hc, hmsg⟩ := ih (i0 + 1) n0 j hj'
        refine ⟨e, ?_, by omega, hc, hmsg⟩
        show e ∈ (replyLoop (r :: rest) i0 n0).2
        simp only [replyLoop]
        rw [hge]
        exact hmem

/-- C8: for `ordered:false` (`continueOnError`), when the last per-operation result is
a stale shard or database version or tenant-migration error, `populateReply`
replicates that result for every remaining index of the batch
(`result.results.resize(opsInBatch, lastResult.getStatus().withReason(""))`), so the
assembled `writeErrors` holds, for every such index, an entry with that index, the
replicated error's (rewritten) code, and an empty message. -/
theorem C8_unordered_trailing_error_replication (opCtx : OpCtx) (opsInBatch : Nat)
    (results : List WriteResultEntry) (cmdReply : Reply) (s : Status) (j : Nat)
    (hskip : shouldSkipOutput opCtx.writeConcern = false)
    (hlast : results.getLast? = some (.error s))
    (hcat : (s.code == ErrorCode.staleDbVersion || isStaleShardVersionError s.code
              || isTenantMigrationError s.code) = true)
    (hj1 : results.length ≤ j) (hj2 : j < opsInBatch) :
    ∃ es, (populateReply opCtx true opsInBatch results cmdReply).writeErrors = some es ∧
      ∃ e ∈ es, e.index = j ∧ e.code = errorCodeOf s ∧ e.errmsg = "" := by
  have hne : ¬ (s.withReason "").code = .ok := by
    intro hok
    have : s.code = .ok := hok
    rw [this] at hcat
    simp [isStaleShardVersionError, isTenantMigrationError] at hcat
  have hres : (listResize results opsInBatch (.error (s.withReason ""))).get? j =
      some (.error (s.withReason "")) :=
    listResize_get_fill _ _ _ _ hj1 hj2
  obtain ⟨e, hmem, hidx, hc, hmsg⟩ :=
    replyLoop_mem (listResize results opsInBatch (.error (s.withReason ""))) 0 0 j
      (s.withReason "") hres hne
  have hcs : errorCodeOf (s.withReason "") = errorCodeOf s := rfl
  refine ⟨(replyLoop (listResize results opsInBatch (.error (s.withReason ""))) 0 0).2,
    ?_, e, hmem, by omega, hcs ▸ hc, hmsg rfl⟩
  have hnemp :
      ((replyLoop (listResize results opsInBatch (.error (s.withReason ""))) 0 0).2).isEmpty
        = false := by
    cases hl : (replyLoop (listResize results opsInBatch (.error (s.withReason ""))) 0 0).2 with
    | nil => rw [hl] at hmem; simp at hmem
    | cons a l => simp
  rw [populateReply, if_neg (by simp [hskip])]
  rw [hlast]
  simp only [statusOf]
  rw [if_pos hcat]
  simp only [hnemp, Bool.false_eq_true, if_false, if_true]
  cases hrm : opCtx.replMode <;> simp [hrm]

/-- C8 witness: a single stale-database-version failure in a three-operation unordered
batch is replicated to index 2 with an empty message. -/
theorem C8_unordered_trailing_error_replication_witness :
    ∃ es, (populateReply ⟨⟨"", 1, SyncMode.unset⟩, ReplMode.modeNone, 0, 0⟩ true 3
        [Except.error ⟨.staleDbVersion, "stale database version", .noInfo⟩]
        emptyReply).writeErrors = some es ∧
      ∃ e ∈ es, e.index = 2 ∧
        e.code = errorCodeOf ⟨.staleDbVersion, "stale database version", .noInfo⟩ ∧
        e.errmsg = "" :=
  C8_unordered_trailing_error_replication
    ⟨⟨"", 1, SyncMode.unset⟩, ReplMode.modeNone, 0, 0⟩ 3
    [Except.error ⟨.staleDbVersion, "stale database version", .noInfo⟩]
    emptyReply ⟨.staleDbVersion, "stale database version", .noInfo⟩ 2
    (by decide) rfl (by decide) (by decide) (by decide)

/-! The time-series write driver: `_commitTimeseriesBucket`,
`_performUnorderedTimeseriesWrites`, `_performTimeseriesWritesSubset`,
`_performTimeseriesWrites`, and the `typedRun` entry. External collaborators
(bucket catalog, session, storage, replication) are modelled as an oracle
environment supplied per pass; batches are identified by their target bucket id. -/

/-- `BucketCatalog::CommitInfo`: the physical write result plus the replication
stamps recorded by the commit owner. -/
structure CommitInfo where
  result : WriteResultEntry
  opTime : Option Nat
  electionId : Option Nat

/-- Outcome of `batch->getResult()` for a batch whose commit another owner drove.
The source `invariant`s that a failed wait can only carry
`TimeseriesBucketCleared`; the type builds that in. -/
inductive JoinedOutcome
  | cleared
  | finished (info : CommitInfo)

/-- The insert command built by `_performTimeseriesInsert` for the buckets
collection. -/
structure TsInsertRequest where
  bypassDocumentValidation : Bool
  stmtIds : Option (List Nat)
  documents : List NewBucketDoc
deriving DecidableEq, Repr

/-- The update command built by `_performTimeseriesUpdate` for the buckets
collection. -/
structure TsUpdateRequest where
  bypassDocumentValidation : Bool
  stmtIds : Option (List Nat)
  updates : List UpdateOpEntry
deriving DecidableEq, Repr

/-- A physical write issued against the system.buckets collection. -/
inductive PhysicalOp
  | insertOp (req : TsInsertRequest)
  | updateOp (req : TsUpdateRequest)
deriving DecidableEq, Repr

/-- Oracle for one pass of `_performUnorderedTimeseriesWrites`: the outcomes of all
external calls made during that pass. -/
structure PassEnv where
  /-- `bucketCatalog.insert` outcome for the document at an absolute position. -/
  route : Nat → Except Status WriteBatch
  /-- another thread already holds this batch's commit rights. -/
  claimedElsewhere : Nat → Bool
  /-- `bucketCatalog.prepareCommit(batch)`; `false` means the bucket was cleared and
  the batch is already finished with `TimeseriesBucketCleared`. -/
  prepareOutcome : Nat → Bool
  /-- `checkFailTimeseriesInsertFailPoint(metadata)`. -/
  failPointOn : BSONObj → Bool
  /-- the result of the physical insert/update (`performInserts`/`performUpdates`). -/
  writeOutcome : Nat → WriteResultEntry
  /-- `batch->getResult()` for a batch committed by another owner. -/
  joined : Nat → JoinedOutcome
  /-- `bucketCatalog.getMetadata(batch->bucket())`. -/
  metadataOf : Nat → BSONObj
  /-- `isTimeseriesWriteRetryable(opCtx)`. -/
  retryable : Bool
  /-- `TransactionParticipant::checkStatementExecutedNoOplogEntryFetch(stmtId)`. -/
  stmtExecuted : Nat → Bool
  /-- the buckets collection exists (first `uassert`). -/
  bucketsCollExists : Bool
  /-- the buckets collection has time-series options (second `uassert`). -/
  hasTimeseriesOptions : Bool

/-- The insert command request fields the driver reads. -/
structure InsertRequest where
  numDocuments : Nat
  ordered : Bool
  stmtIdBase : Option Nat
  stmtIds : Option (List Nat)

/-- The driver's accumulators threaded by pointer through the helpers:
`errors`, `opTime`, `electionId`, `containsRetry`. -/
structure DriverState where
  errors : List WriteErrorEntry
  opTime : Option Nat
  electionId : Option Nat
  containsRetry : Bool
deriving DecidableEq, Repr

/-- Observable side effects of the driver, used to state the claims: physical bucket
writes issued, absolute positions routed through `bucketCatalog.insert`, and bucket
ids of aborted batches. -/
structure Trace where
  physicalOps : List PhysicalOp
  routedDocs : List Nat
  abortedBatches : List Nat
deriving DecidableEq, Repr

def emptyTrace : Trace := ⟨[], [], []⟩

def Trace.append (t u : Trace) : Trace :=
  ⟨t.physicalOps ++ u.physicalOps, t.routedDocs ++ u.routedDocs,
   t.abortedBatches ++ u.abortedBatches⟩

/-- `bucketStmtIds[batch->bucket()].push_back(stmtId)`. -/
def addStmtId (m : List (Nat × List Nat)) (bucket stmtId : Nat) : List (Nat × List Nat) :=
  match m with
  | [] => [(bucket, [stmtId])]
  | (b, ids) :: rest =>
    if b = bucket then (b, ids ++ [stmtId]) :: rest
    else (b, ids) :: addStmtId rest bucket stmtId

/-- `bucketStmtIds[bucket]` read in the commit loop (default-constructed empty). -/
def lookupStmtIds (m : List (Nat × List Nat)) (bucket : Nat) : List Nat :=
  (m.lookup bucket).getD []

/-- Accumulator of the routing loop. -/
structure RoutingAcc where
  state : DriverState
  batches : List (WriteBatch × Nat)
  bucketStmtIds : List (Nat × List Nat)
  trace : Trace

/-- The `insert` lambda of `_performUnorderedTimeseriesWrites`
(write_commands.cpp:693-720): skip an already-executed retryable statement, route the
document through the catalog, record a per-index error on failure or stash the batch on
success. Note that the routing-failure `generateError` call receives the sub-batch
relative `index`, unlike the `start + index` used by `_commitTimeseriesBucket` and the
join loop. -/
def insertOne (env : PassEnv) (req : InsertRequest) (start : Nat) (acc : RoutingAcc)
    (index : Nat) : RoutingAcc :=
  let stmtId := req.stmtIdBase.getD 0 + start + index
  if env.retryable && env.stmtExecuted stmtId then
    { acc with state := { acc.state with containsRetry := true } }
  else
    let acc := { acc with trace :=
      { acc.trace with routedDocs := acc.trace.routedDocs ++ [start + index] } }
    match env.route (start + index) with
    | .error s =>
      match generateError s index acc.state.errors.length with
      | some e => { acc with state := { acc.state with errors := acc.state.errors ++ [e] } }
      | none => acc
    | .ok batch =>
      let acc := { acc with batches := acc.batches ++ [(batch, index)] }
      if env.retryable && req.stmtIds.isNone then
        { acc with bucketStmtIds := addStmtId acc.bucketStmtIds batch.bucketId stmtId }
      else acc

def failPointStatus : Status :=
  ⟨.failPointEnabled, "Failed time-series insert due to failTimeseriesInsert fail point",
   .noInfo⟩

/-- `_performTimeseriesInsert` (write_commands.cpp:537-569): the write result and the
physical op issued (`none` when the fail point short-circuits). The built request sets
`bypassDocumentValidation = true`, attaches the stmtIds when present, and carries the
single-element document vector from `makeTimeseriesInsertDocument`. -/
def performTimeseriesInsert (env : PassEnv) (batch : WriteBatch) (metadata : BSONObj)
    (stmtIds : Option (List Nat)) : WriteResultEntry × Option PhysicalOp :=
  if env.failPointOn metadata then (.error failPointStatus, none)
  else (env.writeOutcome batch.bucketId,
        some (.insertOp { bypassDocumentValidation := true, stmtIds := stmtIds,
                          documents := [makeTimeseriesInsertDocument batch metadata] }))

/-- `_performTimeseriesUpdate` (write_commands.cpp:571-598): one `UpdateOpEntry` from
`makeTimeseriesUpdateOpEntry`, `bypassDocumentValidation = true`, stmtIds attached when
present. -/
def performTimeseriesUpdate (env : PassEnv) (batch : WriteBatch) (metadata : BSONObj)
    (stmtIds : Option (List Nat)) : WriteResultEntry × Option PhysicalOp :=
  if env.failPointOn metadata then (.error failPointStatus, none)
  else (env.writeOutcome batch.bucketId,
        some (.updateOp { bypassDocumentValidation := true, stmtIds := stmtIds,
                          updates := [makeTimeseriesUpdateOpEntry batch metadata] }))

def resultNModified : WriteResultEntry → Nat
  | .ok v => v.nModified
  | .error _ => 0

/-- Accumulator shared by the commit and join loops. -/
structure CommitAcc where
  state : DriverState
  docsToRetry : List Nat
  trace : Trace

/-- Embedding of `_commitTimeseriesBucket` (write_commands.cpp:600-658): a failed
`prepareCommit` enqueues the index for retry (the batch is finished with
`TimeseriesBucketCleared`); otherwise the physical insert (first write) or diff update
is issued, a write failure records a `start + index` error and aborts the batch, a
successful update that modified nothing aborts the batch and enqueues the index, and
success stamps `opTime`/`electionId` and finishes the batch. -/
def commitTimeseriesBucket (opCtx : OpCtx) (env : PassEnv) (batch : WriteBatch)
    (start index : Nat) (stmtIds : Option (List Nat)) (acc : CommitAcc) : CommitAcc :=
  let metadata := env.metadataOf batch.bucketId
  if !env.prepareOutcome batch.bucketId then
    { acc with docsToRetry := acc.docsToRetry ++ [index] }
  else
    let ro := if batch.numPreviouslyCommittedMeasurements = 0
      then performTimeseriesInsert env batch metadata stmtIds
      else performTimeseriesUpdate env batch metadata stmtIds
    let acc := { acc with trace :=
      { acc.trace with physicalOps := acc.trace.physicalOps ++ ro.2.toList } }
    match generateError (statusOf ro.1) (start + index) acc.state.errors.length with
    | some e =>
      { acc with
        state := { acc.state with errors := acc.state.errors ++ [e] }
        trace := { acc.trace with
          abortedBatches := acc.trace.abortedBatches ++ [batch.bucketId] } }
    | none =>
      if batch.numPreviouslyCommittedMeasurements ≠ 0 ∧ resultNModified ro.1 = 0 then
        { acc with
          docsToRetry := acc.docsToRetry ++ [index]
          trace := { acc.trace with
            abortedBatches := acc.trace.abortedBatches ++ [batch.bucketId] } }
      else
        { acc with state := { acc.state with
            opTime := if opCtx.replMode ≠ ReplMode.modeNone
              then some opCtx.lastOpTime else none
            electionId := if opCtx.replMode = ReplMode.modeReplSet
              then some opCtx.electionId else none } }

/-- Accumulator of the commit loop: claimed bucket ids (a batch's
`claimCommitRights()` is one-shot) and the stashed pairs left for the join loop
(only the claimed pair's pointer is `reset()`). -/
structure CommitPhaseAcc where
  acc : CommitAcc
  claimed : List Nat
  remaining : List (WriteBatch × Nat)

/-- The first loop over the stashed batches (write_commands.cpp:734-759): claim commit
rights when available, compute the stmtIds to attach, and drive the commit. -/
def commitPhase (opCtx : OpCtx) (env : PassEnv) (req : InsertRequest)
    (bucketStmtIds : List (Nat × List Nat)) (start : Nat) :
    List (WriteBatch × Nat) → CommitPhaseAcc → CommitPhaseAcc
  | [], cpa => cpa
  | (batch, index) :: rest, cpa =>
    if !env.claimedElsewhere batch.bucketId && !(cpa.claimed.contains batch.bucketId) then
      let stmtIds : Option (List Nat) :=
        if !env.retryable then none
        else match req.stmtIds with
          | some ids => some ids
          | none => some (lookupStmtIds bucketStmtIds batch.bucketId)
      commitPhase opCtx env req bucketStmtIds start rest
        { acc := commitTimeseriesBucket opCtx env batch start index stmtIds cpa.acc
          claimed := cpa.claimed ++ [batch.bucketId]
          remaining := cpa.remaining }
    else
      commitPhase opCtx env req bucketStmtIds start rest
        { cpa with remaining := cpa.remaining ++ [(batch, index)] }

/-- The second loop over the stashed batches (write_commands.cpp:761-789): wait for
each unclaimed batch's result; a `TimeseriesBucketCleared` wait enqueues the index for
retry, a finished result contributes its error (at `start + index`) and the max
`opTime`/`electionId`. -/
def joinPhase (env : PassEnv) (start : Nat) :
    List (WriteBatch × Nat) → CommitAcc → CommitAcc
  | [], acc => acc
  | (batch, index) :: rest, acc =>
    let acc :=
      match env.joined batch.bucketId with
      | .cleared => { acc with docsToRetry := acc.docsToRetry ++ [index] }
      | .finished info =>
        let acc :=
          match generateError (statusOf info.result) (start + index)
              acc.state.errors.length with
          | some e =>
            { acc with state := { acc.state with errors := acc.state.errors ++ [e] } }
          | none => acc
        let acc := match info.opTime with
          | some t => { acc with state := { acc.state with
              opTime := some (max (acc.state.opTime.getD 0) t) } }
          | none => acc
        match info.electionId with
          | some eid => { acc with state := { acc.state with
              electionId := some (max (acc.state.electionId.getD 0) eid) } }
          | none => acc
    joinPhase env start rest acc

/-- Result of one pass. -/
structure PassResult where
  state : DriverState
  docsToRetry : List Nat
  trace : Trace

/-- Embedding of `_performUnorderedTimeseriesWrites` (write_commands.cpp:666-792).
The two leading `uassert`s propagate as request-level errors. -/
def performUnorderedTimeseriesWrites (opCtx : OpCtx) (env : PassEnv) (req : InsertRequest)
    (start numDocs : Nat) (indices : List Nat) (st : DriverState) :
    Except Status PassResult :=
  if !env.bucketsCollExists then
    .error ⟨.namespaceNotFound,
      "Could not find time-series buckets collection for write", .noInfo⟩
  else if !env.hasTimeseriesOptions then
    .error ⟨.invalidOptions,
      "Time-series buckets collection is missing time-series options", .noInfo⟩
  else
    let idxs := if indices.isEmpty then List.range numDocs else indices
    let racc := idxs.foldl (insertOne env req start)
        { state := st, batches := [], bucketStmtIds := [], trace := emptyTrace }
    let cpa := commitPhase opCtx env req racc.bucketStmtIds start racc.batches
        { acc := { state := racc.state, docsToRetry := [], trace := racc.trace }
          claimed := [], remaining := [] }
    let fin := joinPhase env start cpa.remaining cpa.acc
    .ok { state := fin.state, docsToRetry := fin.docsToRetry, trace := fin.trace }

/-- The `do { … } while (!docsToRetry.empty())` loop of
`_performTimeseriesWritesSubset` (write_commands.cpp:794-806), driven by one
environment per pass (the catalog state changes between passes). `none` means the
supplied environments were exhausted before the loop exited. -/
def subsetLoop (opCtx : OpCtx) (req : InsertRequest) (start numDocs : Nat) :
    List PassEnv → List Nat → DriverState → Trace →
      Except Status (Option (DriverState × Trace))
  | [], _, _, _ => .ok none
  | env :: rest, docsToRetry, st, tr =>
    match performUnorderedTimeseriesWrites opCtx env req start numDocs docsToRetry st with
    | .error e => .error e
    | .ok out =>
      if out.docsToRetry.isEmpty then .ok (some (out.state, tr.append out.trace))
      else subsetLoop opCtx req start numDocs rest out.docsToRetry out.state
        (tr.append out.trace)

/-- The ordered loop of `_performTimeseriesWrites` (write_commands.cpp:832-841): one
single-document subset per position, stopping at the first error with `n` reset to the
position; `n` stays the document count when no error occurs. The first component of a
successful outcome is the final `n`. -/
def orderedLoop (opCtx : OpCtx) (req : InsertRequest) (envs : Nat → List PassEnv) :
    Nat → Nat → DriverState → Trace →
      Except Status (Option (Nat × DriverState × Trace))
  | _, 0, st, tr => .ok (some (req.numDocuments, st, tr))
  | i, rem + 1, st, tr =>
    match subsetLoop opCtx req i 1 (envs i) [] st tr with
    | .error e => .error e
    | .ok Option.none => .ok none
    | .ok (some (st', tr')) =>
      if st'.errors.isEmpty then orderedLoop opCtx req envs (i + 1) rem st' tr'
      else .ok (some (i, st', tr'))

/-- The reply assembly at the end of `_performTimeseriesWrites`
(write_commands.cpp:853-861). -/
def mkTsReply (nVal : Nat) (st : DriverState) : Reply :=
  { n := some nVal
    writeErrors := if st.errors.isEmpty then none else some st.errors
    opTime := st.opTime
    electionId := st.electionId }

/-- Embedding of `_performTimeseriesWrites` (write_commands.cpp:808-865): ordered or
unordered dispatch, then `n`, `writeErrors`, `opTime`, `electionId`. For the unordered
branch `n = numDocuments - errors.size()`. -/
def performTimeseriesWrites (opCtx : OpCtx) (req : InsertRequest)
    (envs : Nat → List PassEnv) : Except Status (Option (Reply × Trace)) :=
  let st0 : DriverState := ⟨[], none, none, false⟩
  if req.ordered then
    match orderedLoop opCtx req envs 0 req.numDocuments st0 emptyTrace with
    | .error e => .error e
    | .ok Option.none => .ok none
    | .ok (some (nVal, st, tr)) => .ok (some (mkTsReply nVal st, tr))
  else
    match subsetLoop opCtx req 0 req.numDocuments (envs 0) [] st0 emptyTrace with
    | .error e => .error e
    | .ok Option.none => .ok none
    | .ok (some (st, tr)) =>
      .ok (some (mkTsReply (req.numDocuments - st.errors.length) st, tr))

/-- The namespace and session facts read by `transactionChecks` and the insert
entry point. -/
structure CommandCtx where
  inMultiDocumentTransaction : Bool
  nsIsSystem : Bool
  nsIsPrivilegeCollection : Bool
  oplogDisabledForNs : Bool
  isTimeseriesNs : Bool

/-- Embedding of `transactionChecks` (write_commands.cpp:431-443): inside a
multi-document transaction, writes to system collections (other than privilege
collections) fail with uassert 50791 and writes to unreplicated collections with
50790; everything else passes. -/
def transactionChecks (c : CommandCtx) : Except Nat Unit :=
  if !c.inMultiDocumentTransaction then .ok ()
  else if !(!c.nsIsSystem || c.nsIsPrivilegeCollection) then .error 50791
  else if c.oplogDisabledForNs then .error 50790
  else .ok ()

/-- Request-level outcome of `CmdInsert::Invocation::typedRun`. -/
inductive InsertOutcome
  | uassertFailed (code : Nat)
  | requestError (s : Status)
  | exhausted
  | reply (r : Reply) (tr : Trace)
deriving DecidableEq, Repr

/-- Embedding of `CmdInsert::Invocation::typedRun` (write_commands.cpp:488-516):
`transactionChecks`, then dispatch to the time-series driver for a time-series
namespace, otherwise `performInserts` (its per-operation results supplied as an
oracle) followed by `populateReply`. -/
def typedRunInsert (opCtx : OpCtx) (cmd : CommandCtx) (req : InsertRequest)
    (envs : Nat → List PassEnv) (ordinaryResults : List WriteResultEntry) :
    InsertOutcome :=
  match transactionChecks cmd with
  | .error c => .uassertFailed c
  | .ok _ =>
    if cmd.isTimeseriesNs then
      match performTimeseriesWrites opCtx req envs with
      | .error s => .requestError s
      | .ok Option.none => .exhausted
      | .ok (some (r, tr)) => .reply r tr
    else
      .reply (populateReply opCtx (!req.ordered) req.numDocuments ordinaryResults
        emptyReply) emptyTrace

/-! Concrete scenarios used by the counterexamples and witnesses. -/

/-- A first-write batch for one measurement `{t: 4}` with empty metadata. -/
def okBatch : WriteBatch := ⟨1, 0, [[("t", 4)]], [("t", 4)], [("t", 4)], ["t"]⟩

/-- An environment in which routing, prepare and the physical write all succeed. -/
def okPassEnv : PassEnv :=
  { route := fun _ => .ok okBatch
    claimedElsewhere := fun _ => false
    prepareOutcome := fun _ => true
    failPointOn := fun _ => false
    writeOutcome := fun _ => .ok ⟨1, 0⟩
    joined := fun _ => .cleared
    metadataOf := fun _ => []
    retryable := false
    stmtExecuted := fun _ => false
    bucketsCollExists := true
    hasTimeseriesOptions := true }

def c2BadStatus : Status := ⟨.other 42, "invalid measurement", .noInfo⟩

/-- Like `okPassEnv` but every `bucketCatalog.insert` fails. -/
def c2BadEnv : PassEnv := { okPassEnv with route := fun _ => .error c2BadStatus }

/-- Per-document environments: document 0 succeeds, document 1 fails routing. -/
def c2Envs : Nat → List PassEnv := fun i => if i = 0 then [okPassEnv] else [c2BadEnv]

def stdOpCtx : OpCtx := ⟨⟨"", 1, SyncMode.unset⟩, ReplMode.modeNone, 0, 0⟩

/-- C2: counterexample to the ordered-stop indexing claim. An ordered two-document
insert whose second document fails `bucketCatalog.insert` yields `n = 1` but a
`writeErrors` entry with index 0 — the sub-batch-relative index that the routing
branch of the `insert` lambda passes to `generateError` — although document 0
succeeded and the failing request position is `k = 1`. The commit and join paths of
the same pass use `start + index` instead. -/
theorem C2_ordered_routing_error_gets_relative_index :
    performTimeseriesWrites stdOpCtx ⟨2, true, none, none⟩ c2Envs =
      .ok (some (⟨some 1, some [⟨0, .other 42, "invalid measurement", none⟩], none, none⟩,
        ⟨[.insertOp ⟨true, none, [makeTimeseriesInsertDocument okBatch []]⟩],
         [0, 1], []⟩)) := by
  rfl

def c7Cmd : CommandCtx := ⟨true, false, false, false, true⟩

/-- C7: counterexample to the multi-document-transaction refusal. For an insert into a
time-series collection over a non-system, replicated namespace arriving inside a
multi-document transaction, `transactionChecks` passes (it only refuses system and
unreplicated namespaces) and nothing else in the entry path refuses: the driver runs,
routes the measurement (`routedDocs = [0]`) and persists it (one physical insert),
returning a success reply instead of a request-level error. -/
theorem C7_multi_doc_txn_insert_not_refused :
    c7Cmd.inMultiDocumentTransaction = true ∧
    c7Cmd.isTimeseriesNs = true ∧
    transactionChecks c7Cmd = .ok () ∧
    typedRunInsert stdOpCtx c7Cmd ⟨1, true, none, none⟩ (fun _ => [okPassEnv]) [] =
      .reply ⟨some 1, none, none, none⟩
        ⟨[.insertOp ⟨true, none, [makeTimeseriesInsertDocument okBatch []]⟩], [0], []⟩ :=
  ⟨rfl, rfl, rfl, rfl⟩

/-- C4: for every prepared batch (fail point off), `_commitTimeseriesBucket` issues
exactly one physical write: an insert of the single new bucket document exactly when
`numPreviouslyCommittedMeasurements` is 0, and otherwise a single diff update whose
filter is `{_id: bucketId}`, not multi, not upsert; both ops set
`bypassDocumentValidation` to true and attach the supplied stmtIds. -/
theorem C4_two_phase_commit_dispatch (opCtx : OpCtx) (env : PassEnv) (batch : WriteBatch)
    (start index : Nat) (stmtIds : Option (List Nat)) (acc : CommitAcc)
    (hprep : env.prepareOutcome batch.bucketId = true)
    (hfp : env.failPointOn (env.metadataOf batch.bucketId) = false) :
    (commitTimeseriesBucket opCtx env batch start index stmtIds acc).trace.physicalOps
      = acc.trace.physicalOps ++
        [if batch.numPreviouslyCommittedMeasurements = 0 then
           PhysicalOp.insertOp ⟨true, stmtIds,
             [makeTimeseriesInsertDocument batch (env.metadataOf batch.bucketId)]⟩
         else
           PhysicalOp.updateOp ⟨true, stmtIds,
             [makeTimeseriesUpdateOpEntry batch (env.metadataOf batch.bucketId)]⟩] ∧
    (makeTimeseriesUpdateOpEntry batch (env.metadataOf batch.bucketId)).qIdFilter
      = batch.bucketId ∧
    (makeTimeseriesUpdateOpEntry batch (env.metadataOf batch.bucketId)).multi = false ∧
    (makeTimeseriesUpdateOpEntry batch (env.metadataOf batch.bucketId)).upsert = false := by
  refine ⟨?_, rfl, rfl, rfl⟩
  simp only [commitTimeseriesBucket, hprep, Bool.not_true, Bool.false_eq_true, if_false]
  by_cases hnum : batch.numPreviouslyCommittedMeasurements = 0
  · simp only [if_pos hnum, performTimeseriesInsert, hfp, Bool.false_eq_true, if_false]
    cases hge : generateError (statusOf (env.writeOutcome batch.bucketId))
        (start + index) acc.state.errors.length with
    | some e => simp [hge, hnum]
    | none => simp [hge, hnum]
  · simp only [if_neg hnum, performTimeseriesUpdate, hfp, Bool.false_eq_true, if_false]
    cases hge : generateError (statusOf (env.writeOutcome batch.bucketId))
        (start + index) acc.state.errors.length with
    | some e => simp [hge, hnum]
    | none =>
      by_cases hmod : resultNModified (env.writeOutcome batch.bucketId) = 0 <;>
        simp [hge, hnum, hmod]

def c4Acc : CommitAcc := ⟨⟨[], none, none, false⟩, [], emptyTrace⟩

/-- C4 witness: a first-write batch commits through the insert path with its stmtIds
attached. -/
theorem C4_two_phase_commit_dispatch_witness :
    (commitTimeseriesBucket stdOpCtx okPassEnv okBatch 0 0 (some [11]) c4Acc).trace.physicalOps
      = c4Acc.trace.physicalOps ++
        [if okBatch.numPreviouslyCommittedMeasurements = 0 then
           PhysicalOp.insertOp ⟨true, some [11],
             [makeTimeseriesInsertDocument okBatch (okPassEnv.metadataOf okBatch.bucketId)]⟩
         else
           PhysicalOp.updateOp ⟨true, some [11],
             [makeTimeseriesUpdateOpEntry okBatch (okPassEnv.metadataOf okBatch.bucketId)]⟩] ∧
    (makeTimeseriesUpdateOpEntry okBatch (okPassEnv.metadataOf okBatch.bucketId)).qIdFilter
      = okBatch.bucketId ∧
    (makeTimeseriesUpdateOpEntry okBatch (okPassEnv.metadataOf okBatch.bucketId)).multi
      = false ∧
    (makeTimeseriesUpdateOpEntry okBatch (okPassEnv.metadataOf okBatch.bucketId)).upsert
      = false :=
  C4_two_phase_commit_dispatch stdOpCtx okPassEnv okBatch 0 0 (some [11]) c4Acc rfl rfl

/-! C3 infrastructure: the internal `TimeseriesBucketCleared` code is never placed in
`errors`, and the three retry situations enqueue the measurement index. -/

/-- A status produced by an external collaborator on the paths that surface errors:
neither its code nor an attached migration decision is the internal
`TimeseriesBucketCleared`. The catalog surfaces that code only through a failed
`prepareCommit` or a failed `getResult`, both handled by retrying. -/
def StatusNotCleared (s : Status) : Prop :=
  s.code ≠ ErrorCode.timeseriesBucketCleared ∧
  s.extra.decisionCode ≠ ErrorCode.timeseriesBucketCleared

/-- Well-formedness of a pass environment: routing errors, physical-write errors and
joined commit results never carry `TimeseriesBucketCleared`. -/
def EnvWF (env : PassEnv) : Prop :=
  (∀ p s, env.route p = .error s → StatusNotCleared s) ∧
  (∀ b s, env.writeOutcome b = .error s → StatusNotCleared s) ∧
  (∀ b info s, env.joined b = .finished info → info.result = .error s → StatusNotCleared s)

/-- Every entry of `new` is an old entry or carries a code other than
`TimeseriesBucketCleared`. -/
def ErrorsOK (old new : List WriteErrorEntry) : Prop :=
  ∀ e ∈ new, e ∈ old ∨ e.code ≠ ErrorCode.timeseriesBucketCleared

theorem errorsOK_refl (l : List WriteErrorEntry) : ErrorsOK l l := fun _ he => Or.inl he

theorem errorsOK_trans {a b c : List WriteErrorEntry} (h1 : ErrorsOK a b)
    (h2 : ErrorsOK b c) : ErrorsOK a c := by
  intro e he
  rcases h2 e he with h | h
  · exact h1 e h
  · exact Or.inr h

theorem errorsOK_append_single {old : List WriteErrorEntry} {e : WriteErrorEntry}
    (h : e.code ≠ ErrorCode.timeseriesBucketCleared) : ErrorsOK old (old ++ [e]) := by
  intro x hx
  rcases List.mem_append.mp hx with h1 | h1
  · exact Or.inl h1
  · rw [List.mem_singleton.mp h1]
    exact Or.inr h

theorem generateError_code_not_cleared (s : Status) (i n : Nat) (e : WriteErrorEntry)
    (hwf : StatusNotCleared s) (he : generateError s i n = some e) :
    e.code ≠ ErrorCode.timeseriesBucketCleared := by
  by_cases hok : s.code = .ok
  · rw [generateError, if_pos hok] at he
    exact absurd he (by simp)
  · obtain ⟨e', he', _, hc, _⟩ := generateError_spec s i n hok
    rw [he'] at he
    injection he with he
    subst he
    rw [hc, errorCodeOf]
    split_ifs with h1 h2 h3 h4
    · decide
    · decide
    · exact hwf.2
    · exact hwf.1
    · exact hwf.1

/-- Version for a `StatusWith` result: an OK result generates no entry; an error
result's status obeys the environment's well-formedness. -/
theorem generateError_statusOf_not_cleared (r : WriteResultEntry) (i n : Nat)
    (e : WriteErrorEntry) (hwf : ∀ s, r = .error s → StatusNotCleared s)
    (hge : generateError (statusOf r) i n = some e) :
    e.code ≠ ErrorCode.timeseriesBucketCleared := by
  cases r with
  | ok v => simp [statusOf, generateError, okStatus] at hge
  | error s => exact generateError_code_not_cleared s i n e (hwf s rfl) hge

theorem insertOne_errors (env : PassEnv) (req : InsertRequest) (start : Nat)
    (acc : RoutingAcc) (index : Nat)
    (hwf : ∀ p s, env.route p = .error s → StatusNotCleared s) :
    ErrorsOK acc.state.errors (insertOne env req start acc index).state.errors := by
  unfold insertOne
  by_cases hskip :
      (env.retryable && env.stmtExecuted (req.stmtIdBase.getD 0 + start + index)) = true
  · rw [if_pos hskip]
    exact errorsOK_refl _
  · rw [if_neg hskip]
    cases hr : env.route (start + index) with
    | error s =>
      cases hge : generateError s index acc.state.errors.length with
      | some e0 =>
        simp only [hge]
        exact errorsOK_append_single
          (generateError_code_not_cleared s index _ e0 (hwf _ _ hr) hge)
      | none =>
        simp only [hge]
        exact errorsOK_refl _
    | ok batch =>
      by_cases hrs : (env.retryable && req.stmtIds.isNone) = true <;>
        simp only [hrs, if_true, Bool.false_eq_true, if_false] <;>
        exact errorsOK_refl _

theorem foldl_insertOne_errors (env : PassEnv) (req : InsertRequest) (start : Nat)
    (hwf : ∀ p s, env.route p = .error s → StatusNotCleared s) :
    ∀ (idxs : List Nat) (acc : RoutingAcc),
      ErrorsOK acc.state.errors ((idxs.foldl (insertOne env req start) acc).state.errors)
  | [], _ => errorsOK_refl _
  | i :: is, acc =>
    errorsOK_trans (insertOne_errors env req start acc i hwf)
      (foldl_insertOne_errors env req start hwf is (insertOne env req start acc i))

theorem commitTimeseriesBucket_errors (opCtx : OpCtx) (env : PassEnv) (batch : WriteBatch)
    (start index : Nat) (stmtIds : Option (List Nat)) (acc : CommitAcc)
    (hwf : ∀ b s, env.writeOutcome b = .error s → StatusNotCleared s) :
    ErrorsOK acc.state.errors
      (commitTimeseriesBucket opCtx env batch start index stmtIds acc).state.errors := by
  unfold commitTimeseriesBucket
  by_cases hprep : env.prepareOutcome batch.bucketId
  · simp only [hprep, Bool.not_true, Bool.false_eq_true, if_false]
    have hro : ∀ s,
        (if batch.numPreviouslyCommittedMeasurements = 0
          then performTimeseriesInsert env batch (env.metadataOf batch.bucketId) stmtIds
          else performTimeseriesUpdate env batch (env.metadataOf batch.bucketId) stmtIds).1
            = .error s → StatusNotCleared s := by
      intro s hs
      by_cases hnum : batch.numPreviouslyCommittedMeasurements = 0 <;>
        [rw [if_pos hnum] at hs; rw [if_neg hnum] at hs] <;>
        [rw [performTimeseriesInsert] at hs; rw [performTimeseriesUpdate] at hs] <;>
        by_cases hf : env.failPointOn (env.metadataOf batch.bucketId) = true <;>
        simp only [hf, if_true, Bool.false_eq_true, if_false] at hs
      · injection hs with hs
        rw [← hs]
        exact ⟨by decide, by decide⟩
      · exact hwf _ _ hs
      · injection hs with hs
        rw [← hs]
        exact ⟨by decide, by decide⟩
      · exact hwf _ _ hs
    cases hge : generateError
        (statusOf (if batch.numPreviouslyCommittedMeasurements = 0
          then performTimeseriesInsert env batch (env.metadataOf batch.bucketId) stmtIds
          else performTimeseriesUpdate env batch (env.metadataOf batch.bucketId) stmtIds).1)
        (start + index) acc.state.errors.length with
    | some e =>
      simp only [hge]
      exact errorsOK_append_single (generateError_statusOf_not_cleared _ _ _ e hro hge)
    | none =>
      simp only [hge]
      split_ifs <;> exact errorsOK_refl _
  · simp only [Bool.not_eq_true] at hprep
    simp only [hprep, Bool.not_false, if_true]
    exact errorsOK_refl _

theorem commitPhase_errors (opCtx : OpCtx) (env : PassEnv) (req : InsertRequest)
    (bucketStmtIds : List (Nat × List Nat)) (start : Nat)
    (hwf : ∀ b s, env.writeOutcome b = .error s → StatusNotCleared s) :
    ∀ (pairs : List (WriteBatch × Nat)) (cpa : CommitPhaseAcc),
      ErrorsOK cpa.acc.state.errors
        (commitPhase opCtx env req bucketStmtIds start pairs cpa).acc.state.errors
  | [], _ => errorsOK_refl _
  | (batch, index) :: rest, cpa => by
    rw [commitPhase]
    by_cases hc :
        (!env.claimedElsewhere batch.bucketId && !cpa.claimed.contains batch.bucketId) = true
    · rw [if_pos hc]
      exact errorsOK_trans
        (commitTimeseriesBucket_errors opCtx env batch start index _ cpa.acc hwf)
        (commitPhase_errors opCtx env req bucketStmtIds start hwf rest _)
    · rw [if_neg hc]
      exact commitPhase_errors opCtx env req bucketStmtIds start hwf rest _

theorem joinPhase_errors (env : PassEnv) (start : Nat)
    (hwf : ∀ b info s, env.joined b = .finished info → info.result = .error s →
      StatusNotCleared s) :
    ∀ (pairs : List (WriteBatch × Nat)) (acc : CommitAcc),
      ErrorsOK acc.state.errors (joinPhase env start pairs acc).state.errors
  | [], _ => errorsOK_refl _
  | (batch, index) :: rest, acc => by
    rw [joinPhase]
    cases hj : env.joined batch.bucketId with
    | cleared =>
      exact joinPhase_errors env start hwf rest _
    | finished info =>
      have hstep : ErrorsOK acc.state.errors
          ((match generateError (statusOf info.result) (start + index)
              acc.state.errors.length with
            | some e =>
              { acc with state := { acc.state with errors := acc.state.errors ++ [e] } }
            | none => acc) : CommitAcc).state.errors := by
        cases hge : generateError (statusOf info.result) (start + index)
            acc.state.errors.length with
        | some e =>
          simp only
          exact errorsOK_append_single
            (generateError_statusOf_not_cleared _ _ _ e (fun s hs => hwf _ _ _ hj hs) hge)
        | none => exact errorsOK_refl _
      refine errorsOK_trans ?_ (joinPhase_errors env start hwf rest _)
      cases hge : generateError (statusOf info.result) (start + index)
          acc.state.errors.length with
      | some e =>
        simp only [hge]
        cases info.opTime <;> cases info.electionId <;>
          exact errorsOK_append_single
            (generateError_statusOf_not_cleared _ _ _ e (fun s hs => hwf _ _ _ hj hs) hge)
      | none =>
        simp only [hge]
        cases info.opTime <;> cases info.electionId <;> exact errorsOK_refl _

theorem pass_errors (opCtx : OpCtx) (env : PassEnv) (req : InsertRequest)
    (start numDocs : Nat) (indices : List Nat) (st : DriverState) (out : PassResult)
    (hwf : EnvWF env)
    (hout : performUnorderedTimeseriesWrites opCtx env req start numDocs indices st
      = .ok out) :
    ErrorsOK st.errors out.state.errors := by
  rw [performUnorderedTimeseriesWrites] at hout
  by_cases h1 : env.bucketsCollExists = true
  swap
  · rw [Bool.not_eq_true] at h1
    simp [h1] at hout
  by_cases h2 : env.hasTimeseriesOptions = true
  swap
  · rw [Bool.not_eq_true] at h2
    simp [h1, h2] at hout
  simp only [h1, h2, Bool.not_true, Bool.false_eq_true, if_false] at hout
  injection hout with hout
  generalize hR : (List.foldl (insertOne env req start)
      { state := st, batches := [], bucketStmtIds := [], trace := emptyTrace }
      (if indices.isEmpty = true then List.range numDocs else indices)) = racc at hout
  generalize hC : commitPhase opCtx env req racc.bucketStmtIds start racc.batches
      { acc := { state := racc.state, docsToRetry := [], trace := racc.trace }
        claimed := [], remaining := [] } = cpa at hout
  generalize hJ : joinPhase env start cpa.remaining cpa.acc = fin at hout
  have hr : ErrorsOK st.errors racc.state.errors := by
    rw [← hR]
    exact foldl_insertOne_errors env req start hwf.1 _ _
  have hcp : ErrorsOK racc.state.errors cpa.acc.state.errors := by
    rw [← hC]
    exact commitPhase_errors opCtx env req _ start hwf.2.1 _ _
  have hjp : ErrorsOK cpa.acc.state.errors fin.state.errors := by
    rw [← hJ]
    exact joinPhase_errors env start hwf.2.2 _ _
  rw [← hout]
  exact errorsOK_trans hr (errorsOK_trans hcp hjp)

theorem subsetLoop_errors (opCtx : OpCtx) (req : InsertRequest) (start numDocs : Nat) :
    ∀ (envs : List PassEnv) (dtr : List Nat) (st : DriverState) (tr : Trace)
      (st' : DriverState) (tr' : Trace),
      (∀ env ∈ envs, EnvWF env) →
      subsetLoop opCtx req start numDocs envs dtr st tr = .ok (some (st', tr')) →
      ErrorsOK st.errors st'.errors
  | [], _, _, _, _, _, _, h => by simp [subsetLoop] at h
  | env :: rest, dtr, st, tr, st', tr', hwf, h => by
    rw [subsetLoop] at h
    cases hp : performUnorderedTimeseriesWrites opCtx env req start numDocs dtr st with
    | error e => rw [hp] at h; dsimp only at h; simp at h
    | ok out =>
      rw [hp] at h
      dsimp only at h
      have hpe : ErrorsOK st.errors out.state.errors :=
        pass_errors opCtx env req start numDocs dtr st out
          (hwf env (List.mem_cons_self _ _)) hp
      by_cases hdr : out.docsToRetry.isEmpty
      · rw [if_pos hdr] at h
        simp only [Except.ok.injEq, Option.some.injEq, Prod.mk.injEq] at h
        rw [← h.1]
        exact hpe
      · rw [if_neg hdr] at h
        exact errorsOK_trans hpe
          (subsetLoop_errors opCtx req start numDocs rest out.docsToRetry out.state
            (tr.append out.trace) st' tr'
            (fun e he => hwf e (List.mem_cons_of_mem _ he)) h)

theorem orderedLoop_errors (opCtx : OpCtx) (req : InsertRequest)
    (envs : Nat → List PassEnv) :
    ∀ (rem i : Nat) (st : DriverState) (tr : Trace) (nVal : Nat) (st' : DriverState)
      (tr' : Trace),
      (∀ j, ∀ env ∈ envs j, EnvWF env) →
      orderedLoop opCtx req envs i rem st tr = .ok (some (nVal, st', tr')) →
      ErrorsOK st.errors st'.errors
  | 0, i, st, tr, nVal, st', tr', _, h => by
    rw [orderedLoop] at h
    simp only [Except.ok.injEq, Option.some.injEq, Prod.mk.injEq] at h
    rw [← h.2.1]
    exact errorsOK_refl _
  | rem + 1, i, st, tr, nVal, st', tr', hwf, h => by
    rw [orderedLoop] at h
    cases hs : subsetLoop opCtx req i 1 (envs i) [] st tr with
    | error e => rw [hs] at h; dsimp only at h; simp at h
    | ok outOpt =>
      rw [hs] at h
      cases outOpt with
      | none => dsimp only at h; simp at h
      | some p =>
        obtain ⟨st2, tr2⟩ := p
        dsimp only at h
        have hse : ErrorsOK st.errors st2.errors :=
          subsetLoop_errors opCtx req i 1 (envs i) [] st tr st2 tr2 (hwf i) hs
        by_cases he : st2.errors.isEmpty
        · rw [if_pos he] at h
          exact errorsOK_trans hse
            (orderedLoop_errors opCtx req envs rem (i + 1) st2 tr2 nVal st' tr' hwf h)
        · rw [if_neg he] at h
          simp only [Except.ok.injEq, Option.some.injEq, Prod.mk.injEq] at h
          rw [← h.2.1]
          exact hse

/-- Driver-level: a reply produced by `_performTimeseriesWrites` under well-formed
environments never carries `TimeseriesBucketCleared` in `writeErrors`. -/
theorem performTimeseriesWrites_never_cleared (opCtx : OpCtx) (req : InsertRequest)
    (envs : Nat → List PassEnv) (r : Reply) (tr : Trace) (es : List WriteErrorEntry)
    (hwf : ∀ j, ∀ env ∈ envs j, EnvWF env)
    (hrun : performTimeseriesWrites opCtx req envs = .ok (some (r, tr)))
    (hes : r.writeErrors = some es) :
    ∀ e ∈ es, e.code ≠ ErrorCode.timeseriesBucketCleared := by
  rw [performTimeseriesWrites] at hrun
  have final : ∀ (st : DriverState) (nVal : Nat), ErrorsOK [] st.errors →
      r = mkTsReply nVal st → ∀ e ∈ es, e.code ≠ ErrorCode.timeseriesBucketCleared := by
    intro st nVal hok hr e he
    have hes' : es = st.errors := by
      rw [hr] at hes
      rw [mkTsReply] at hes
      by_cases hemp : st.errors.isEmpty
      · simp [hemp] at hes
      · simp only [hemp, Bool.false_eq_true, if_false] at hes
        injection hes with hes
        exact hes.symm
    rw [hes'] at he
    rcases hok e he with h | h
    · exact absurd h (List.not_mem_nil e)
    · exact h
  by_cases hord : req.ordered = true
  · rw [if_pos hord] at hrun
    cases ho : orderedLoop opCtx req envs 0 req.numDocuments ⟨[], none, none, false⟩
        emptyTrace with
    | error e => rw [ho] at hrun; dsimp only at hrun; simp at hrun
    | ok outOpt =>
      rw [ho] at hrun
      cases outOpt with
      | none => dsimp only at hrun; simp at hrun
      | some p =>
        obtain ⟨nVal, stF, trF⟩ := p
        dsimp only at hrun
        have hoe : ErrorsOK ([] : List WriteErrorEntry) stF.errors :=
          orderedLoop_errors opCtx req envs req.numDocuments 0 _ _ nVal stF trF hwf ho
        have hr : r = mkTsReply nVal stF := by
          simp only [Except.ok.injEq, Option.some.injEq, Prod.mk.injEq] at hrun
          exact hrun.1.symm
        exact final stF nVal hoe hr
  · rw [if_neg hord] at hrun
    cases hs : subsetLoop opCtx req 0 req.numDocuments (envs 0) [] ⟨[], none, none, false⟩
        emptyTrace with
    | error e => rw [hs] at hrun; dsimp only at hrun; simp at hrun
    | ok outOpt =>
      rw [hs] at hrun
      cases outOpt with
      | none => dsimp only at hrun; simp at hrun
      | some p =>
        obtain ⟨stF, trF⟩ := p
        dsimp only at hrun
        have hse : ErrorsOK ([] : List WriteErrorEntry) stF.errors :=
          subsetLoop_errors opCtx req 0 req.numDocuments (envs 0) [] _ _ stF trF
            (hwf 0) hs
        have hr : r = mkTsReply (req.numDocuments - stF.errors.length) stF := by
          simp only [Except.ok.injEq, Option.some.injEq, Prod.mk.injEq] at hrun
          exact hrun.1.symm
        exact final stF _ hse hr

/-- The retry loop exits only after a pass whose `docsToRetry` is empty, and the final
state is that pass's state. -/
theorem subsetLoop_exits_empty (opCtx : OpCtx) (req : InsertRequest) (start numDocs : Nat) :
    ∀ (envs : List PassEnv) (dtr : List Nat) (st : DriverState) (tr : Trace)
      (st' : DriverState) (tr' : Trace),
      subsetLoop opCtx req start numDocs envs dtr st tr = .ok (some (st', tr')) →
      ∃ env dtr2 st2 out,
        performUnorderedTimeseriesWrites opCtx env req start numDocs dtr2 st2 = .ok out ∧
        out.docsToRetry = [] ∧ st' = out.state
  | [], _, _, _, _, _, h => by simp [subsetLoop] at h
  | env :: rest, dtr, st, tr, st', tr', h => by
    rw [subsetLoop] at h
    cases hp : performUnorderedTimeseriesWrites opCtx env req start numDocs dtr st with
    | error e => rw [hp] at h; dsimp only at h; simp at h
    | ok out =>
      rw [hp] at h
      dsimp only at h
      by_cases hdr : out.docsToRetry.isEmpty
      · rw [if_pos hdr] at h
        refine ⟨env, dtr, st, out, hp, List.isEmpty_iff.mp hdr, ?_⟩
        simp only [Except.ok.injEq, Option.some.injEq, Prod.mk.injEq] at h
        exact h.1.symm
      · rw [if_neg hdr] at h
        exact subsetLoop_exits_empty opCtx req start numDocs rest out.docsToRetry
          out.state (tr.append out.trace) st' tr' h

/-- `docsToRetry` only grows during the join loop. -/
theorem joinPhase_docs_mono (env : PassEnv) (start : Nat) :
    ∀ (pairs : List (WriteBatch × Nat)) (acc : CommitAcc) (x : Nat),
      x ∈ acc.docsToRetry → x ∈ (joinPhase env start pairs acc).docsToRetry
  | [], _, _, hx => hx
  | (batch, index) :: rest, acc, x, hx => by
    rw [joinPhase]
    cases hj : env.joined batch.bucketId with
    | cleared =>
      exact joinPhase_docs_mono env start rest _ x (List.mem_append_left _ hx)
    | finished info =>
      refine joinPhase_docs_mono env start rest _ x ?_
      cases hge : generateError (statusOf info.result) (start + index)
          acc.state.errors.length <;>
        simp only [hge] <;>
        cases info.opTime <;> cases info.electionId <;> exact hx

/-- A stashed batch whose wait ends in `TimeseriesBucketCleared` has its index
enqueued for retry by the join loop. -/
theorem joinPhase_cleared_retries (env : PassEnv) (start : Nat) :
    ∀ (pairs : List (WriteBatch × Nat)) (acc : CommitAcc) (batch : WriteBatch)
      (index : Nat),
      (batch, index) ∈ pairs →
      env.joined batch.bucketId = .cleared →
      index ∈ (joinPhase env start pairs acc).docsToRetry
  | [], _, _, _, hmem, _ => absurd hmem (List.not_mem_nil _)
  | (b0, i0) :: rest, acc, batch, index, hmem, hj => by
    rcases List.mem_cons.mp hmem with h | h
    · injection h with h1 h2
      subst h1
      subst h2
      rw [joinPhase, hj]
      exact joinPhase_docs_mono env start rest _ index
        (List.mem_append_right _ (List.mem_singleton.mpr rfl))
    · rw [joinPhase]
      cases hj0 : env.joined b0.bucketId with
      | cleared => exact joinPhase_cleared_retries env start rest _ batch index h hj
      | finished info => exact joinPhase_cleared_retries env start rest _ batch index h hj

/-- C3: transparent retry of cleared buckets.
1. Under well-formed environments (the catalog only surfaces
`TimeseriesBucketCleared` through a failed `prepareCommit` or a cleared wait), no
reply of `_performTimeseriesWrites` carries `TimeseriesBucketCleared` in
`writeErrors`.
2. A batch whose `prepareCommit` fails has its index appended to `docsToRetry`.
3. A successful diff update that modified no document (`nModified == 0`) aborts the
batch and appends its index to `docsToRetry`.
4. A stashed batch whose wait ends in `TimeseriesBucketCleared` has its index
enqueued by the join loop.
5. The driver's do-while loop re-enters with `docsToRetry` until a pass returns it
empty; its final state is that pass's state. -/
theorem C3_transparent_retry_of_cleared_buckets :
    (∀ (opCtx : OpCtx) (req : InsertRequest) (envs : Nat → List PassEnv) (r : Reply)
       (tr : Trace) (es : List WriteErrorEntry),
       (∀ j, ∀ env ∈ envs j, EnvWF env) →
       performTimeseriesWrites opCtx req envs = .ok (some (r, tr)) →
       r.writeErrors = some es →
       ∀ e ∈ es, e.code ≠ ErrorCode.timeseriesBucketCleared) ∧
    (∀ (opCtx : OpCtx) (env : PassEnv) (batch : WriteBatch) (start index : Nat)
       (stmtIds : Option (List Nat)) (acc : CommitAcc),
       env.prepareOutcome batch.bucketId = false →
       (commitTimeseriesBucket opCtx env batch start index stmtIds acc).docsToRetry
         = acc.docsToRetry ++ [index]) ∧
    (∀ (opCtx : OpCtx) (env : PassEnv) (batch : WriteBatch) (start index : Nat)
       (stmtIds : Option (List Nat)) (acc : CommitAcc) (v : SingleWriteResult),
       env.prepareOutcome batch.bucketId = true →
       env.failPointOn (env.metadataOf batch.bucketId) = false →
       batch.numPreviouslyCommittedMeasurements ≠ 0 →
       env.writeOutcome batch.bucketId = .ok v →
       v.nModified = 0 →
       (commitTimeseriesBucket opCtx env batch start index stmtIds acc).docsToRetry
           = acc.docsToRetry ++ [index] ∧
       (commitTimeseriesBucket opCtx env batch start index stmtIds acc).trace.abortedBatches
           = acc.trace.abortedBatches ++ [batch.bucketId]) ∧
    (∀ (env : PassEnv) (start : Nat) (pairs : List (WriteBatch × Nat)) (acc : CommitAcc)
       (batch : WriteBatch) (index : Nat),
       (batch, index) ∈ pairs →
       env.joined batch.bucketId = .cleared →
       index ∈ (joinPhase env start pairs acc).docsToRetry) ∧
    (∀ (opCtx : OpCtx) (req : InsertRequest) (start numDocs : Nat) (envs : List PassEnv)
       (dtr : List Nat) (st : DriverState) (tr : Trace) (st' : DriverState) (tr' : Trace),
       subsetLoop opCtx req start numDocs envs dtr st tr = .ok (some (st', tr')) →
       ∃ env dtr2 st2 out,
         performUnorderedTimeseriesWrites opCtx env req start numDocs dtr2 st2 = .ok out ∧
         out.docsToRetry = [] ∧ st' = out.state) := by
  refine ⟨performTimeseriesWrites_never_cleared, ?_, ?_,
    joinPhase_cleared_retries, fun opCtx req start numDocs => subsetLoop_exits_empty opCtx req start numDocs⟩
  · intro opCtx env batch start index stmtIds acc hprep
    rw [commitTimeseriesBucket, hprep]
    rfl
  · intro opCtx env batch start index stmtIds acc v hprep hfp hnum hw hmod
    rw [commitTimeseriesBucket, hprep]
    simp only [Bool.not_true, Bool.false_eq_true, if_false, if_neg hnum,
      performTimeseriesUpdate, hfp, hw]
    have hge : generateError (statusOf (Except.ok v : WriteResultEntry)) (start + index)
        acc.state.errors.length = none := by
      simp [statusOf, generateError, okStatus]
    simp only [hge]
    have hcond : batch.numPreviouslyCommittedMeasurements ≠ 0 ∧
        resultNModified (Except.ok v : WriteResultEntry) = 0 := ⟨hnum, hmod⟩
    rw [if_pos hcond]
    exact ⟨rfl, rfl⟩

/-- C3 witness: concrete instantiations of the conjuncts. A pass over the ordered
counterexample scenario yields writeErrors whose entries avoid
`TimeseriesBucketCleared`, and a batch with a failed `prepareCommit` enqueues its
index. -/
theorem C3_transparent_retry_of_cleared_buckets_witness :
    (∀ e ∈ [(⟨0, ErrorCode.other 42, "invalid measurement", none⟩ : WriteErrorEntry)],
        e.code ≠ ErrorCode.timeseriesBucketCleared) ∧
    (commitTimeseriesBucket stdOpCtx
        { okPassEnv with prepareOutcome := fun _ => false } okBatch 0 4 none
        ⟨⟨[], none, none, false⟩, [], emptyTrace⟩).docsToRetry = [] ++ [4] := by
  constructor
  · exact C3_transparent_retry_of_cleared_buckets.1 stdOpCtx ⟨2, true, none, none⟩ c2Envs
      _ _ _
      (by
        intro j env henv
        by_cases hj : j = 0
        · subst hj
          rw [show c2Envs 0 = [okPassEnv] from rfl, List.mem_singleton] at henv
          subst henv
          refine ⟨?_, ?_, ?_⟩
          · intro p s h; simp [okPassEnv] at h
          · intro b s h; simp [okPassEnv] at h
          · intro b info s h; simp [okPassEnv] at h
        · rw [show c2Envs j = if j = 0 then [okPassEnv] else [c2BadEnv] from rfl,
              if_neg hj, List.mem_singleton] at henv
          subst henv
          refine ⟨?_, ?_, ?_⟩
          · intro p s h
            simp only [c2BadEnv, okPassEnv] at h
            injection h with h
            rw [← h]
            exact ⟨by decide, by decide⟩
          · intro b s h; simp [c2BadEnv, okPassEnv] at h
          · intro b info s h; simp [c2BadEnv, okPassEnv] at h)
      rfl rfl
  · exact C3_transparent_retry_of_cleared_buckets.2.1 stdOpCtx
      { okPassEnv with prepareOutcome := fun _ => false } okBatch 0 4 none
      ⟨⟨[], none, none, false⟩, [], emptyTrace⟩ rfl

end MongoWrite
